import Mathlib

/-!
Shallow embedding of the trajectory-aggregation and iteration-scheduling core
of rlgym-learn, translated from
`src/rlgym_learn/standard_impl/ppo/env_trajectories.py` and
`src/rlgym_learn/standard_impl/ppo/ppo_agent_controller.py`, together with
theorems settling the frozen claims about that code.

Modelling conventions:
* Python dicts are association lists (`alookup` / `aset` / `aremove`);
  insertion order is preserved exactly as CPython preserves it.  A lookup on a
  missing key raises `KeyError` in Python; the model totalizes those lookups
  with `Option.getD` defaults, and every theorem that depends on a dict entry
  hypothesizes that the entry is present, so theorems only speak about states
  on which the model and the code agree.
* torch tensors appear only as opaque payloads: a log-probability row is a
  `List Q`, `torch.stack` of the row history is the row list itself, and the
  column selection `log_probs[:, idx]` is the map extracting entry `idx` of
  every row.  (`torch.stack` of an empty list raises; trackers built by the
  controller always have at least one row, and theorems touching stacked rows
  carry a nonemptiness hypothesis.)
* machine integers are `Nat` / `Int`; wall-clock readings are opaque `Int`
  values passed explicitly wherever the code calls `time.perf_counter()` or
  `time.time_ns()`.
* external collaborators (learner, experience buffer, metrics logger, critic,
  wandb) are elided or passed as explicit function arguments; only the
  presence or absence of the metrics logger matters to the claims, so it is
  modelled as `Option Unit`.
-/

set_option autoImplicit false

universe u

variable {A Obs Act Rew Q V M E : Type}

/-- Association-list lookup, modelling Python `d[k]` / `k in d` on a dict
represented as its insertion-ordered entry list. -/
def alookup [DecidableEq A] {β : Type u} : List (A × β) → A → Option β
  | [], _ => none
  | (k, v) :: rest, key => if k = key then some v else alookup rest key

/-- Association-list update, modelling Python `d[k] = v`: replaces the value
of an existing key in place, otherwise appends the new key at the end (CPython
dict insertion order). -/
def aset [DecidableEq A] {β : Type u} : List (A × β) → A → β → List (A × β)
  | [], key, val => [(key, val)]
  | (k, v) :: rest, key, val =>
      if k = key then (k, val) :: rest else (k, v) :: aset rest key val

/-- Association-list removal, modelling Python `d.pop(k)`'s effect on the
dict (first occurrence of the key is removed). -/
def aremove [DecidableEq A] {β : Type u} : List (A × β) → A → List (A × β)
  | [], _ => []
  | (k, v) :: rest, key => if k = key then rest else (k, v) :: aremove rest key

/-- One environment transition for one agent
(`rlgym_learn.experience.timestep.Timestep`). -/
structure Timestep (A Obs Act Rew : Type) where
  agent_id : A
  obs : Obs
  next_obs : Obs
  action : Act
  reward : Rew
  terminated : Bool
  truncated : Bool

deriving instance DecidableEq for Timestep

/-- One agent's trajectory for one iteration
(`rlgym_learn.standard_impl.ppo.trajectory.Trajectory`, a dataclass whose
fields are read off from its construction site in
`EnvTrajectories.get_trajectories`).  Python initializes `val_preds` to `None`
and `final_val_pred` to `torch.tensor(0, dtype=torch.float32)`; both fields
are placeholders that the value backfill overwrites before any read, so the
model uses `Option` with `none` for the not-yet-filled state of each. -/
structure Trajectory (A Obs Act Rew Q V : Type) where
  agent_id : A
  obs_list : List Obs
  action_list : List Act
  log_probs : List Q
  reward_list : List Rew
  val_preds : Option (List V)
  final_obs : Option Obs
  final_val_pred : Option V
  truncated : Bool

deriving instance DecidableEq for Trajectory

/-- Per-environment trajectory tracker
(`rlgym_learn.standard_impl.ppo.env_trajectories.EnvTrajectories`). -/
structure EnvTrajectories (A Obs Act Rew Q : Type) where
  agent_ids : List A
  obs_lists : List (A × List Obs)
  action_lists : List (A × List Act)
  reward_lists : List (A × List Rew)
  final_obs : List (A × Option Obs)
  dones : List (A × Bool)
  truncateds : List (A × Bool)
  log_probs_list : List (List Q)

deriving instance DecidableEq for EnvTrajectories

/-- `EnvTrajectories.__init__`: every dict gets one entry per agent id. -/
def EnvTrajectories.init [DecidableEq A] (agent_ids : List A) :
    EnvTrajectories A Obs Act Rew Q where
  agent_ids := agent_ids
  obs_lists := agent_ids.foldl (fun d a => aset d a []) []
  action_lists := agent_ids.foldl (fun d a => aset d a []) []
  reward_lists := agent_ids.foldl (fun d a => aset d a []) []
  final_obs := agent_ids.foldl (fun d a => aset d a none) []
  dones := agent_ids.foldl (fun d a => aset d a false) []
  truncateds := agent_ids.foldl (fun d a => aset d a false) []
  log_probs_list := []

/-- Loop body of `EnvTrajectories.add_steps`: one timestep is either dropped
(its agent is already done) or appended to its agent's sequences, updating
`final_obs` and possibly marking the agent done. -/
def addStepsBody [DecidableEq A]
    (acc : EnvTrajectories A Obs Act Rew Q × Nat) (t : Timestep A Obs Act Rew) :
    EnvTrajectories A Obs Act Rew Q × Nat :=
  let e := acc.1
  if (alookup e.dones t.agent_id).getD false then acc
  else
    let e1 : EnvTrajectories A Obs Act Rew Q :=
      { e with
        obs_lists := aset e.obs_lists t.agent_id
          ((alookup e.obs_lists t.agent_id).getD [] ++ [t.obs])
        action_lists := aset e.action_lists t.agent_id
          ((alookup e.action_lists t.agent_id).getD [] ++ [t.action])
        reward_lists := aset e.reward_lists t.agent_id
          ((alookup e.reward_lists t.agent_id).getD [] ++ [t.reward])
        final_obs := aset e.final_obs t.agent_id (some t.next_obs) }
    let now_done := t.terminated || t.truncated
    let e2 : EnvTrajectories A Obs Act Rew Q :=
      if now_done then
        { e1 with
          dones := aset e1.dones t.agent_id true
          truncateds := aset e1.truncateds t.agent_id t.truncated }
      else e1
    (e2, acc.2 + 1)

/-- `EnvTrajectories.add_steps`: folds the timestep loop, then appends the
log-probability row unconditionally; returns the new tracker together with
`steps_added`. -/
def EnvTrajectories.add_steps [DecidableEq A]
    (env : EnvTrajectories A Obs Act Rew Q)
    (timesteps : List (Timestep A Obs Act Rew)) (log_probs : List Q) :
    EnvTrajectories A Obs Act Rew Q × Nat :=
  let r := timesteps.foldl addStepsBody (env, 0)
  ({ r.1 with log_probs_list := r.1.log_probs_list ++ [log_probs] }, r.2)

/-- Per-agent body of `EnvTrajectories.finalize`. -/
def finalizeBody [DecidableEq A]
    (e : EnvTrajectories A Obs Act Rew Q) (a : A) :
    EnvTrajectories A Obs Act Rew Q :=
  let newTrunc :=
    (alookup e.truncateds a).getD false || !((alookup e.dones a).getD false)
  { e with
    truncateds := aset e.truncateds a newTrunc
    dones := aset e.dones a true }

/-- `EnvTrajectories.finalize`: truncates unfinished trajectories, marks all
agents done. -/
def EnvTrajectories.finalize [DecidableEq A]
    (env : EnvTrajectories A Obs Act Rew Q) : EnvTrajectories A Obs Act Rew Q :=
  env.agent_ids.foldl finalizeBody env

/-- `EnvTrajectories.get_trajectories`: stacks the log-prob history (the model
of `torch.stack` on a list of equal-length rows is the row list itself) and
builds one `Trajectory` per agent, slicing column `idx` of the stack as agent
`idx`'s log-prob sequence.  The `getD` default stands for the out-of-range
tensor index error, which cannot fire when every row has one entry per
tracked agent. -/
def EnvTrajectories.get_trajectories {V : Type} [DecidableEq A] [Inhabited Q]
    (env : EnvTrajectories A Obs Act Rew Q) : List (Trajectory A Obs Act Rew Q V) :=
  let log_probs := env.log_probs_list
  env.agent_ids.enum.map (fun p =>
    { agent_id := p.2
      obs_list := (alookup env.obs_lists p.2).getD []
      action_list := (alookup env.action_lists p.2).getD []
      log_probs := log_probs.map (fun row => row.getD p.1 default)
      reward_list := (alookup env.reward_lists p.2).getD []
      val_preds := none
      final_obs := (alookup env.final_obs p.2).getD none
      final_val_pred := none
      truncated := (alookup env.truncateds p.2).getD false })

/-- Python slice `l[i : j]` for nonnegative bounds (clamping, empty when
`j ≤ i`). -/
def pySlice {β : Type u} (l : List β) (i j : Nat) : List β :=
  (l.drop i).take (j - i)

/-- Python slice `l[: -n]` for a nonnegative `n`.  For `n = 0` the slice is
`l[:0] = []` because `-0 == 0`. -/
def pyPrefixSlice {β : Type u} (l : List β) (n : Nat) : List β :=
  if n = 0 then [] else l.take (l.length - n)

/-- First loop of `PPOAgentController._update_value_predictions`: builds, per
trajectory in order, the `[start, stop)` index range it owns, the agent-id
repetition, and the flattened observation input
(`trajectory.obs_list + [trajectory.final_obs]`). -/
def buildCriticRequest {A Obs Act Rew Q V : Type} :
    List (Trajectory A Obs Act Rew Q V) → Nat →
      List (Nat × Nat) × List A × List (Option Obs)
  | [], _ => ([], [], [])
  | t :: rest, start =>
    let obsL := t.obs_list.map some ++ [t.final_obs]
    let stop := start + obsL.length
    let r := buildCriticRequest rest stop
    ((start, stop) :: r.1, List.replicate obsL.length t.agent_id ++ r.2.1,
      obsL ++ r.2.2)

/-- Final loop of `PPOAgentController._update_value_predictions`: writes
`val_preds = val_preds_arr[start : stop - 1]` and
`final_val_pred = val_preds_arr[stop - 1]` into the trajectory at each index
of the range list; trajectories beyond the range list are untouched. -/
def applyValPreds {A Obs Act Rew Q V : Type}
    (trajs : List (Trajectory A Obs Act Rew Q V))
    (ranges : List (Nat × Nat)) (vals : List V) :
    List (Trajectory A Obs Act Rew Q V) :=
  (trajs.zip ranges).map (fun p =>
    { p.1 with
      val_preds := some (pySlice vals p.2.1 (p.2.2 - 1))
      final_val_pred := vals.get? (p.2.2 - 1) })
  ++ trajs.drop ranges.length

/-- `PPOAgentController._update_value_predictions`: one batched critic call
over the flattened request, then the per-trajectory writeback.  The critic is
the external collaborator, passed as a function. -/
def update_value_predictions {A Obs Act Rew Q V : Type}
    (trajs : List (Trajectory A Obs Act Rew Q V))
    (critic : List A → List (Option Obs) → List V) :
    List (Trajectory A Obs Act Rew Q V) :=
  let r := buildCriticRequest trajs 0
  applyValPreds trajs r.1 (critic r.2.1 r.2.2)

/-- The checkpoints deleted by the pruning step of
`PPOAgentController.save_checkpoint`: the Python slice
`sorted(existing)[: -n_checkpoints_to_keep]`. -/
def checkpointsToDelete (existing : List Int) (nKeep : Nat) : List Int :=
  pyPrefixSlice (List.insertionSort (fun a b => a ≤ b) existing) nKeep

/-- Effect of the pruning step of `PPOAgentController.save_checkpoint` on the
checkpoint-directory listing: when more directories exist than the retention
count, every directory named in `checkpointsToDelete` is removed. -/
def pruneCheckpoints (existing : List Int) (nKeep : Nat) : List Int :=
  if nKeep < existing.length then
    existing.filter (fun t => decide (t ∉ checkpointsToDelete existing nKeep))
  else existing

/-- The STEP / RESET answer of `PPOAgentController.choose_env_actions`
(`STEP_RESPONSE` / `RESET_RESPONSE` from `rlgym_learn.agent.env_action`). -/
inductive EnvActionResponse where
  | STEP : EnvActionResponse
  | RESET : EnvActionResponse

deriving instance DecidableEq for EnvActionResponse

/-- The configuration fields of `PPOAgentControllerConfigModel` that the
modelled control flow reads. -/
structure PPOAgentControllerConfig where
  timesteps_per_iteration : Nat
  save_every_ts : Nat
  n_checkpoints_to_keep : Nat

deriving instance DecidableEq for PPOAgentControllerConfig

/-- The mutable controller fields of `PPOAgentController` that the claims are
about (set in `__init__`, lines 150-176).  The learner, experience buffer and
wandb run are external collaborators and are elided; the metrics logger is
kept only as present (`some ()`) or absent (`none`), mirroring
`metrics_logger = metrics_logger_factory()` versus `metrics_logger = None`. -/
structure PPOAgentControllerState (A Obs Act Rew Q V M E : Type) where
  metrics_logger : Option Unit
  current_env_trajectories : List (E × EnvTrajectories A Obs Act Rew Q)
  current_trajectories : List (Trajectory A Obs Act Rew Q V)
  iteration_state_metrics : List M
  cur_iteration : Int
  iteration_timesteps : Nat
  cumulative_timesteps : Nat
  iteration_start_time : Int
  timestep_collection_start_time : Int
  ts_since_last_save : Nat

deriving instance DecidableEq for PPOAgentControllerState

/-- `PPOAgentController.__init__`: empty maps and lists, zero counters, both
start timers set to the same `perf_counter` reading `t0`. -/
def initController (metrics_logger : Option Unit) (t0 : Int) :
    PPOAgentControllerState A Obs Act Rew Q V M E where
  metrics_logger := metrics_logger
  current_env_trajectories := []
  current_trajectories := []
  iteration_state_metrics := []
  cur_iteration := 0
  iteration_timesteps := 0
  cumulative_timesteps := 0
  iteration_start_time := t0
  timestep_collection_start_time := t0
  ts_since_last_save := 0

/-- The contents of one checkpoint directory as written by
`PPOAgentController.save_checkpoint`: the pickle of
`self.current_trajectories` (`current_trajectories.pkl`), the pickle of
`self.iteration_state_metrics` (`iteration_state_metrics.pkl`), and the
scalar record of `ppo_agent.json`.  The delegated learner / experience-buffer
/ metrics-logger subdirectories and the optional wandb run id are external
and elided.  Note the open-tracker map `current_env_trajectories` is not
written to any file. -/
structure CheckpointData (A Obs Act Rew Q V M : Type) where
  current_trajectories_file : List (Trajectory A Obs Act Rew Q V)
  iteration_state_metrics_file : List M
  cur_iteration : Int
  iteration_timesteps : Nat
  cumulative_timesteps : Nat
  iteration_start_time : Int
  timestep_collection_start_time : Int

deriving instance DecidableEq for CheckpointData

/-- The data `PPOAgentController.save_checkpoint` writes into a fresh
checkpoint directory (lines 350-374). -/
def saveData (s : PPOAgentControllerState A Obs Act Rew Q V M E) :
    CheckpointData A Obs Act Rew Q V M where
  current_trajectories_file := s.current_trajectories
  iteration_state_metrics_file := s.iteration_state_metrics
  cur_iteration := s.cur_iteration
  iteration_timesteps := s.iteration_timesteps
  cumulative_timesteps := s.cumulative_timesteps
  iteration_start_time := s.iteration_start_time
  timestep_collection_start_time := s.timestep_collection_start_time

/-- Error message for the unconditional `self.metrics_logger.save_checkpoint`
call when `metrics_logger` is `None`. -/
def metricsLoggerNoneMsg : String :=
  "AttributeError: NoneType object has no attribute save_checkpoint"

/-- `PPOAgentController.save_checkpoint`: creates a fresh directory named by
`newToken` (`time.time_ns()`), delegates to the learner and experience buffer
(external, elided), calls `self.metrics_logger.save_checkpoint`
unconditionally - raising `AttributeError` when no metrics logger was
configured - then writes the checkpoint files and prunes old checkpoint
directories.  `existingTokens` is the directory listing of the checkpoints
save folder before this save; the returned list is the listing afterwards. -/
def save_checkpoint (s : PPOAgentControllerState A Obs Act Rew Q V M E)
    (existingTokens : List Int) (newToken : Int) (nKeep : Nat) :
    Except String (CheckpointData A Obs Act Rew Q V M × List Int) :=
  match s.metrics_logger with
  | none => .error metricsLoggerNoneMsg
  | some _ => .ok (saveData s, pruneCheckpoints (existingTokens ++ [newToken]) nKeep)

/-- `PPOAgentController._load_from_checkpoint`: reads the three files back and
assigns `current_trajectories`, `iteration_state_metrics` and the five scalars.
`current_env_trajectories` is not read from anywhere and keeps the value the
constructor gave it. -/
def load_from_checkpoint (s : PPOAgentControllerState A Obs Act Rew Q V M E)
    (d : CheckpointData A Obs Act Rew Q V M) :
    PPOAgentControllerState A Obs Act Rew Q V M E :=
  { s with
    current_trajectories := d.current_trajectories_file
    iteration_state_metrics := d.iteration_state_metrics_file
    cur_iteration := d.cur_iteration
    iteration_timesteps := d.iteration_timesteps
    cumulative_timesteps := d.cumulative_timesteps
    iteration_start_time := d.iteration_start_time
    timestep_collection_start_time := d.timestep_collection_start_time }

/-- `PPOAgentController._learn` (lines 522-562).  Finalizes every open
tracker and moves its trajectories into the completed list, backfills value
predictions with one batched critic call, hands the result to the external
experience buffer and learner (returned as the second component), optionally
collects metrics (external, state-invisible, guarded by an `is not None`
check in the code), and resets the iteration-scoped state.  `curTime` is the
`perf_counter` reading taken before metrics collection and `t2` the one taken
for the new collection timer.  The code contains no `cur_iteration` update. -/
def learn [DecidableEq A] [Inhabited Q]
    (s : PPOAgentControllerState A Obs Act Rew Q V M E)
    (critic : List A → List (Option Obs) → List V) (curTime t2 : Int) :
    PPOAgentControllerState A Obs Act Rew Q V M E ×
      List (Trajectory A Obs Act Rew Q V) :=
  let completed := s.current_env_trajectories.foldl
    (fun acc p => acc ++ p.2.finalize.get_trajectories) s.current_trajectories
  let submitted := update_value_predictions completed critic
  ({ s with
      iteration_state_metrics := []
      current_env_trajectories := []
      current_trajectories := []
      ts_since_last_save := s.ts_since_last_save + s.iteration_timesteps
      iteration_timesteps := 0
      iteration_start_time := curTime
      timestep_collection_start_time := t2 },
    submitted)

/-- Loop body of `PPOAgentController.choose_env_actions` for one environment
id (lines 507-519). -/
def choose_env_actions_for_env [DecidableEq A] [DecidableEq E] [Inhabited Q]
    (s : PPOAgentControllerState A Obs Act Rew Q V M E) (envId : E) :
    EnvActionResponse × PPOAgentControllerState A Obs Act Rew Q V M E :=
  match alookup s.current_env_trajectories envId with
  | none => (.STEP, s)
  | some tr =>
    if tr.dones.all (fun p => p.2) then
      (.RESET,
        { s with
          current_trajectories := s.current_trajectories ++ tr.get_trajectories
          current_env_trajectories := aremove s.current_env_trajectories envId })
    else (.STEP, s)

/-- `PPOAgentController.choose_env_actions`: answers STEP or RESET for every
environment id in `state_info`, in order. -/
def choose_env_actions [DecidableEq A] [DecidableEq E] [Inhabited Q]
    (s : PPOAgentControllerState A Obs Act Rew Q V M E) (state_info : List E) :
    List (E × EnvActionResponse) × PPOAgentControllerState A Obs Act Rew Q V M E :=
  state_info.foldl
    (fun acc envId =>
      let r := choose_env_actions_for_env acc.2 envId
      (acc.1 ++ [(envId, r.1)], r.2))
    ([], s)

/-- One delivery of `timestep_data` for one environment: the environment id,
its timestep list, its log-probability row, and its opaque state-metrics
payload (the fourth tuple component of the Python value is unused). -/
structure TimestepDataEntry (A Obs Act Rew Q M E : Type) where
  env_id : E
  env_timesteps : List (Timestep A Obs Act Rew)
  env_log_probs : List Q
  env_state_metrics : M

deriving instance DecidableEq for TimestepDataEntry

/-- The ingestion loop and counter updates of
`PPOAgentController.process_timestep_data` (lines 472-494), followed by the
iteration-boundary check (lines 495-500): for each environment with a
nonempty timestep list, create its tracker on first sight from the batch's
agent ids and route the batch through `add_steps`; collect every
environment's state-metrics payload; add the accepted step count to both
timestep counters; then run `_learn` if `iteration_timesteps` reached the
threshold.  This is the controller state just before the save-checkpoint
check. -/
def process_timestep_data_core [DecidableEq A] [DecidableEq E] [Inhabited Q]
    (cfg : PPOAgentControllerConfig)
    (s : PPOAgentControllerState A Obs Act Rew Q V M E)
    (timestep_data : List (TimestepDataEntry A Obs Act Rew Q M E))
    (critic : List A → List (Option Obs) → List V) (curTime t2 : Int) :
    PPOAgentControllerState A Obs Act Rew Q V M E :=
  let ingest := timestep_data.foldl
    (fun (acc : List (E × EnvTrajectories A Obs Act Rew Q) × Nat × List M) entry =>
      let step :=
        if entry.env_timesteps.isEmpty then (acc.1, acc.2.1)
        else
          let tr := match alookup acc.1 entry.env_id with
            | none => EnvTrajectories.init
                (entry.env_timesteps.map (fun (t : Timestep A Obs Act Rew) => t.agent_id))
            | some tr => tr
          let r := tr.add_steps entry.env_timesteps entry.env_log_probs
          (aset acc.1 entry.env_id r.1, acc.2.1 + r.2)
      (step.1, step.2, acc.2.2 ++ [entry.env_state_metrics]))
    (s.current_env_trajectories, 0, [])
  let s1 : PPOAgentControllerState A Obs Act Rew Q V M E :=
    { s with
      current_env_trajectories := ingest.1
      iteration_timesteps := s.iteration_timesteps + ingest.2.1
      cumulative_timesteps := s.cumulative_timesteps + ingest.2.1
      iteration_state_metrics := s.iteration_state_metrics ++ ingest.2.2 }
  if cfg.timesteps_per_iteration ≤ s1.iteration_timesteps then
    (learn s1 critic curTime t2).1
  else s1

/-- `PPOAgentController.process_timestep_data` (lines 472-503): the core
above, then the save-checkpoint check - `save_checkpoint` runs (and can raise)
when `ts_since_last_save` reached `save_every_ts`, after which the counter is
zeroed.  `existingTokens` / `newToken` model the checkpoint folder listing and
the fresh `time.time_ns()` directory name. -/
def process_timestep_data [DecidableEq A] [DecidableEq E] [Inhabited Q]
    (cfg : PPOAgentControllerConfig)
    (s : PPOAgentControllerState A Obs Act Rew Q V M E)
    (timestep_data : List (TimestepDataEntry A Obs Act Rew Q M E))
    (critic : List A → List (Option Obs) → List V) (curTime t2 : Int)
    (existingTokens : List Int) (newToken : Int) :
    Except String (PPOAgentControllerState A Obs Act Rew Q V M E) :=
  let s3 := process_timestep_data_core cfg s timestep_data critic curTime t2
  if cfg.save_every_ts ≤ s3.ts_since_last_save then
    match save_checkpoint s3 existingTokens newToken cfg.n_checkpoints_to_keep with
    | .error e => .error e
    | .ok _ => .ok { s3 with ts_since_last_save := 0 }
  else .ok s3

/-- Controller states reachable through the public operations: construction,
`process_timestep_data` deliveries (with arbitrary external inputs), and
`choose_env_actions` queries. -/
inductive ReachableController [DecidableEq A] [DecidableEq E] [Inhabited Q]
    (cfg : PPOAgentControllerConfig) :
    PPOAgentControllerState A Obs Act Rew Q V M E → Prop where
  | init (metrics_logger : Option Unit) (t0 : Int) :
      ReachableController cfg (initController metrics_logger t0)
  | ptd {s s' : PPOAgentControllerState A Obs Act Rew Q V M E}
      (timestep_data : List (TimestepDataEntry A Obs Act Rew Q M E))
      (critic : List A → List (Option Obs) → List V) (curTime t2 : Int)
      (existingTokens : List Int) (newToken : Int) :
      ReachableController cfg s →
      process_timestep_data cfg s timestep_data critic curTime t2
        existingTokens newToken = .ok s' →
      ReachableController cfg s'
  | cea {s : PPOAgentControllerState A Obs Act Rew Q V M E}
      (state_info : List E) :
      ReachableController cfg s →
      ReachableController cfg (choose_env_actions s state_info).2

/-- The controller states at which `save_checkpoint` writes a checkpoint: the
state after the ingestion / learning phase of a `process_timestep_data` call
on a reachable state, when the save threshold has been reached (the only call
site of `save_checkpoint` in the code). -/
def SaveInvoked [DecidableEq A] [DecidableEq E] [Inhabited Q]
    (cfg : PPOAgentControllerConfig)
    (s3 : PPOAgentControllerState A Obs Act Rew Q V M E) : Prop :=
  ∃ (s : PPOAgentControllerState A Obs Act Rew Q V M E)
    (timestep_data : List (TimestepDataEntry A Obs Act Rew Q M E))
    (critic : List A → List (Option Obs) → List V) (curTime t2 : Int),
    ReachableController cfg s ∧
    s3 = process_timestep_data_core cfg s timestep_data critic curTime t2 ∧
    cfg.save_every_ts ≤ s3.ts_since_last_save

/-! ### Association-list lemmas -/

theorem alookup_aset_self [DecidableEq A] {β : Type u}
    (d : List (A × β)) (k : A) (v : β) : alookup (aset d k v) k = some v := by
  induction d with
  | nil => simp [aset, alookup]
  | cons p rest ih =>
    by_cases h : p.1 = k
    · simp [aset, alookup, h]
    · simp [aset, alookup, h, ih]

theorem alookup_aset_ne [DecidableEq A] {β : Type u}
    (d : List (A × β)) (k k' : A) (v : β) (h : k ≠ k') :
    alookup (aset d k v) k' = alookup d k' := by
  induction d with
  | nil => simp [aset, alookup, h]
  | cons p rest ih =>
    by_cases hp : p.1 = k
    · simp [aset, alookup, hp, h]
    · simp only [aset, hp, if_false, alookup]
      by_cases hp' : p.1 = k' <;> simp [hp', ih]

theorem aset_self_of_alookup [DecidableEq A] {β : Type u}
    {d : List (A × β)} {k : A} {v : β} (h : alookup d k = some v) :
    aset d k v = d := by
  induction d with
  | nil => simp [alookup] at h
  | cons p rest ih =>
    obtain ⟨k0, v0⟩ := p
    by_cases hp : k0 = k
    · subst hp
      simp [alookup] at h
      simp [aset, h]
    · simp [alookup, hp] at h
      simp [aset, hp, ih h]

theorem alookup_aset_isSome [DecidableEq A] {β : Type u}
    (d : List (A × β)) (k k' : A) (v : β)
    (h : (alookup d k').isSome) : (alookup (aset d k v) k').isSome := by
  by_cases hk : k = k'
  · subst hk; simp [alookup_aset_self]
  · rwa [alookup_aset_ne d k k' v hk]

theorem alookup_eq_none_of_not_mem_keys [DecidableEq A] {β : Type u}
    {d : List (A × β)} {k : A} (h : k ∉ d.map Prod.fst) :
    alookup d k = none := by
  induction d with
  | nil => simp [alookup]
  | cons p rest ih =>
    simp only [List.map_cons, List.mem_cons] at h
    push_neg at h
    have hp : p.1 ≠ k := fun hc : p.1 = k => h.1 hc.symm
    simp [alookup, hp, ih h.2]

theorem alookup_aremove_self [DecidableEq A] {β : Type u}
    {d : List (A × β)} (k : A) (hnd : (d.map Prod.fst).Nodup) :
    alookup (aremove d k) k = none := by
  induction d with
  | nil => simp [aremove, alookup]
  | cons p rest ih =>
    simp only [List.map_cons, List.nodup_cons] at hnd
    by_cases hp : p.1 = k
    · subst hp
      simp only [aremove, if_pos rfl]
      exact alookup_eq_none_of_not_mem_keys hnd.1
    · simp [aremove, alookup, hp, ih hnd.2]

theorem alookup_aremove_ne [DecidableEq A] {β : Type u}
    {d : List (A × β)} (k k' : A) (h : k' ≠ k) :
    alookup (aremove d k) k' = alookup d k' := by
  induction d with
  | nil => simp [aremove]
  | cons p rest ih =>
    by_cases hp : p.1 = k
    · subst hp
      simp [aremove, alookup, Ne.symm h]
    · simp only [aremove, hp, if_false, alookup]
      by_cases hp' : p.1 = k' <;> simp [hp', ih]

/-! ### Lemmas about `EnvTrajectories.finalize` -/

theorem finalizeBody_dones_preserved [DecidableEq A]
    {e : EnvTrajectories A Obs Act Rew Q} {a : A} (b : A)
    (h : alookup e.dones a = some true) :
    alookup (finalizeBody e b).dones a = some true := by
  by_cases hb : b = a
  · subst hb; simp [finalizeBody, alookup_aset_self]
  · simpa [finalizeBody, alookup_aset_ne _ b a _ hb] using h

theorem finalizeFold_dones_preserved [DecidableEq A]
    (l : List A) (e : EnvTrajectories A Obs Act Rew Q) (a : A)
    (h : alookup e.dones a = some true) :
    alookup (l.foldl finalizeBody e).dones a = some true := by
  induction l generalizing e with
  | nil => exact h
  | cons b rest ih => exact ih _ (finalizeBody_dones_preserved b h)

theorem finalizeFold_dones_of_mem [DecidableEq A]
    (l : List A) (e : EnvTrajectories A Obs Act Rew Q) (a : A) (h : a ∈ l) :
    alookup (l.foldl finalizeBody e).dones a = some true := by
  induction l generalizing e with
  | nil => cases h
  | cons b rest ih =>
    by_cases hb : a ∈ rest
    · exact ih _ hb
    · have hba : b = a := by
        rcases List.mem_cons.mp h with h1 | h2
        · exact h1.symm
        · exact absurd h2 hb
      subst hba
      exact finalizeFold_dones_preserved rest _ b
        (by simp [finalizeBody, alookup_aset_self])

theorem finalizeBody_truncateds_isSome [DecidableEq A]
    {e : EnvTrajectories A Obs Act Rew Q} {a : A} (b : A)
    (h : (alookup e.truncateds a).isSome) :
    (alookup (finalizeBody e b).truncateds a).isSome := by
  exact alookup_aset_isSome _ b a _ h

theorem finalizeFold_truncateds_isSome_preserved [DecidableEq A]
    (l : List A) (e : EnvTrajectories A Obs Act Rew Q) (a : A)
    (h : (alookup e.truncateds a).isSome) :
    (alookup (l.foldl finalizeBody e).truncateds a).isSome := by
  induction l generalizing e with
  | nil => exact h
  | cons b rest ih => exact ih _ (finalizeBody_truncateds_isSome b h)

theorem finalizeFold_truncateds_of_mem [DecidableEq A]
    (l : List A) (e : EnvTrajectories A Obs Act Rew Q) (a : A) (h : a ∈ l) :
    (alookup (l.foldl finalizeBody e).truncateds a).isSome := by
  induction l generalizing e with
  | nil => cases h
  | cons b rest ih =>
    by_cases hb : a ∈ rest
    · exact ih _ hb
    · have hba : b = a := by
        rcases List.mem_cons.mp h with h1 | h2
        · exact h1.symm
        · exact absurd h2 hb
      subst hba
      exact finalizeFold_truncateds_isSome_preserved rest _ b
        (by simp [finalizeBody, alookup_aset_self])

theorem finalizeBody_eq_self [DecidableEq A]
    {e : EnvTrajectories A Obs Act Rew Q} {a : A} {tv : Bool}
    (hd : alookup e.dones a = some true) (ht : alookup e.truncateds a = some tv) :
    finalizeBody e a = e := by
  have h1 : ((alookup e.truncateds a).getD false
      || !((alookup e.dones a).getD false)) = tv := by
    rw [hd, ht]; simp
  simp only [finalizeBody, h1, aset_self_of_alookup hd, aset_self_of_alookup ht]

theorem finalizeFold_eq_self [DecidableEq A]
    (l : List A) (e : EnvTrajectories A Obs Act Rew Q)
    (h : ∀ a ∈ l, alookup e.dones a = some true ∧ (alookup e.truncateds a).isSome) :
    l.foldl finalizeBody e = e := by
  induction l with
  | nil => rfl
  | cons b rest ih =>
    have hb := h b (List.mem_cons_self b rest)
    obtain ⟨tv, htv⟩ := Option.isSome_iff_exists.mp hb.2
    rw [List.foldl_cons, finalizeBody_eq_self hb.1 htv]
    exact ih (fun a ha => h a (List.mem_cons_of_mem b ha))

theorem finalizeFold_agent_ids [DecidableEq A]
    (l : List A) (e : EnvTrajectories A Obs Act Rew Q) :
    (l.foldl finalizeBody e).agent_ids = e.agent_ids := by
  induction l generalizing e with
  | nil => rfl
  | cons b rest ih => rw [List.foldl_cons, ih]; rfl

theorem finalizeFold_keeps [DecidableEq A]
    (l : List A) (e : EnvTrajectories A Obs Act Rew Q) (a : A) (tv : Bool)
    (hd : alookup e.dones a = some true) (ht : alookup e.truncateds a = some tv) :
    alookup (l.foldl finalizeBody e).dones a = some true
    ∧ alookup (l.foldl finalizeBody e).truncateds a = some tv := by
  induction l generalizing e with
  | nil => exact ⟨hd, ht⟩
  | cons b rest ih =>
    by_cases hb : b = a
    · subst hb
      rw [List.foldl_cons, finalizeBody_eq_self hd ht]
      exact ih _ hd ht
    · rw [List.foldl_cons]
      exact ih _ (by simpa [finalizeBody, alookup_aset_ne _ b a _ hb] using hd)
        (by simpa [finalizeBody, alookup_aset_ne _ b a _ hb] using ht)

theorem finalizeFold_not_done [DecidableEq A]
    (l : List A) (e : EnvTrajectories A Obs Act Rew Q) (a : A)
    (hmem : a ∈ l) (hd : alookup e.dones a = some false) :
    alookup (l.foldl finalizeBody e).truncateds a = some true := by
  induction l generalizing e with
  | nil => cases hmem
  | cons b rest ih =>
    by_cases hb : b = a
    · subst hb
      rw [List.foldl_cons]
      have hd2 : alookup (finalizeBody e b).dones b = some true := by
        simp [finalizeBody, alookup_aset_self]
      have ht2 : alookup (finalizeBody e b).truncateds b = some true := by
        simp [finalizeBody, alookup_aset_self, hd]
      exact (finalizeFold_keeps rest _ b true hd2 ht2).2
    · by_cases hmem' : a ∈ rest
      · rw [List.foldl_cons]
        exact ih _ hmem'
          (by simpa [finalizeBody, alookup_aset_ne _ b a _ hb] using hd)
      · rcases List.mem_cons.mp hmem with h1 | h2
        · exact absurd h1.symm hb
        · exact absurd h2 hmem'

/-- C9 - Finalize idempotence: `finalize` twice equals `finalize` once; every
tracked agent ends with `done = true`; an agent whose dict entries exist and
that was already done keeps its recorded `truncated` value; an agent not yet
done ends with `truncated = true`. -/
theorem finalize_idempotent [DecidableEq A]
    (env : EnvTrajectories A Obs Act Rew Q) (a : A) (tv : Bool) :
    env.finalize.finalize = env.finalize
    ∧ (a ∈ env.agent_ids → alookup env.finalize.dones a = some true)
    ∧ (alookup env.dones a = some true → alookup env.truncateds a = some tv →
        alookup env.finalize.truncateds a = some tv)
    ∧ (a ∈ env.agent_ids → alookup env.dones a = some false →
        alookup env.finalize.truncateds a = some true) := by
  refine ⟨?_, ?_, ?_, ?_⟩
  · show (env.finalize).agent_ids.foldl finalizeBody env.finalize = env.finalize
    rw [show env.finalize = env.agent_ids.foldl finalizeBody env from rfl,
      finalizeFold_agent_ids]
    exact finalizeFold_eq_self _ _ (fun b hb =>
      ⟨finalizeFold_dones_of_mem _ _ b hb, finalizeFold_truncateds_of_mem _ _ b hb⟩)
  · exact fun h => finalizeFold_dones_of_mem _ _ a h
  · exact fun hd ht => (finalizeFold_keeps _ _ a tv hd ht).2
  · exact fun hmem hd => finalizeFold_not_done _ _ a hmem hd

/-- A concrete two-agent tracker: agent 0 finished (not truncated), agent 1
still running. -/
def envW : EnvTrajectories Nat Nat Nat Nat Nat where
  agent_ids := [0, 1]
  obs_lists := [(0, [10]), (1, [11])]
  action_lists := [(0, [20]), (1, [21])]
  reward_lists := [(0, [30]), (1, [31])]
  final_obs := [(0, some 40), (1, some 41)]
  dones := [(0, true), (1, false)]
  truncateds := [(0, false), (1, false)]
  log_probs_list := [[1, 2]]

/-- Witness for C9 at the concrete tracker `envW`. -/
theorem finalize_idempotent_witness :
    envW.finalize.finalize = envW.finalize
    ∧ alookup envW.finalize.dones 0 = some true
    ∧ alookup envW.finalize.truncateds 0 = some false
    ∧ alookup envW.finalize.truncateds 1 = some true := by
  refine ⟨(finalize_idempotent envW 0 false).1,
    (finalize_idempotent envW 0 false).2.1 (by decide),
    (finalize_idempotent envW 0 false).2.2.1 (by decide) (by decide),
    (finalize_idempotent envW 1 false).2.2.2 (by decide) (by decide)⟩

/-! ### Lemmas about `EnvTrajectories.add_steps` -/

theorem addStepsBody_skip [DecidableEq A]
    {e : EnvTrajectories A Obs Act Rew Q} {n : Nat} {t : Timestep A Obs Act Rew}
    (h : alookup e.dones t.agent_id = some true) :
    addStepsBody (e, n) t = (e, n) := by
  simp [addStepsBody, h]

theorem addStepsBody_done_preserved [DecidableEq A]
    (acc : EnvTrajectories A Obs Act Rew Q × Nat) (t : Timestep A Obs Act Rew)
    (a : A) (h : alookup acc.1.dones a = some true) :
    alookup (addStepsBody acc t).1.dones a = some true := by
  unfold addStepsBody
  by_cases hg : (alookup acc.1.dones t.agent_id).getD false
  · simp only [hg, if_true]
    exact h
  · have hta : t.agent_id ≠ a := by
      intro hc
      rw [hc, h] at hg
      simp at hg
    by_cases hnd : (t.terminated || t.truncated) <;>
      simp [hg, hnd, alookup_aset_ne _ _ _ _ hta, h]

theorem addStepsBody_log_probs [DecidableEq A]
    (acc : EnvTrajectories A Obs Act Rew Q × Nat) (t : Timestep A Obs Act Rew) :
    (addStepsBody acc t).1.log_probs_list = acc.1.log_probs_list := by
  unfold addStepsBody
  by_cases hg : (alookup acc.1.dones t.agent_id).getD false
  · simp [hg]
  · by_cases hnd : (t.terminated || t.truncated) <;> simp [hg, hnd]

theorem addStepsLoop_log_probs [DecidableEq A]
    (ts : List (Timestep A Obs Act Rew))
    (acc : EnvTrajectories A Obs Act Rew Q × Nat) :
    (ts.foldl addStepsBody acc).1.log_probs_list = acc.1.log_probs_list := by
  induction ts generalizing acc with
  | nil => rfl
  | cons t rest ih => rw [List.foldl_cons, ih, addStepsBody_log_probs]

theorem addStepsBody_untouched [DecidableEq A]
    (acc : EnvTrajectories A Obs Act Rew Q × Nat) (t : Timestep A Obs Act Rew)
    (a : A) (hta : t.agent_id ≠ a) :
    alookup (addStepsBody acc t).1.obs_lists a = alookup acc.1.obs_lists a
    ∧ alookup (addStepsBody acc t).1.action_lists a = alookup acc.1.action_lists a
    ∧ alookup (addStepsBody acc t).1.reward_lists a = alookup acc.1.reward_lists a
    ∧ alookup (addStepsBody acc t).1.final_obs a = alookup acc.1.final_obs a
    ∧ alookup (addStepsBody acc t).1.truncateds a = alookup acc.1.truncateds a := by
  unfold addStepsBody
  by_cases hg : (alookup acc.1.dones t.agent_id).getD false
  · simp [hg]
  · by_cases hnd : (t.terminated || t.truncated) <;>
      simp [hg, hnd, alookup_aset_ne _ _ _ _ hta]

theorem addStepsLoop_untouched [DecidableEq A]
    (ts : List (Timestep A Obs Act Rew))
    (acc : EnvTrajectories A Obs Act Rew Q × Nat)
    (a : A) (h : ∀ t ∈ ts, t.agent_id ≠ a) :
    alookup (ts.foldl addStepsBody acc).1.obs_lists a = alookup acc.1.obs_lists a
    ∧ alookup (ts.foldl addStepsBody acc).1.action_lists a = alookup acc.1.action_lists a
    ∧ alookup (ts.foldl addStepsBody acc).1.reward_lists a = alookup acc.1.reward_lists a
    ∧ alookup (ts.foldl addStepsBody acc).1.final_obs a = alookup acc.1.final_obs a
    ∧ alookup (ts.foldl addStepsBody acc).1.truncateds a = alookup acc.1.truncateds a := by
  induction ts generalizing acc with
  | nil => exact ⟨rfl, rfl, rfl, rfl, rfl⟩
  | cons t rest ih =>
    have hta := h t (List.mem_cons_self t rest)
    have hbody := addStepsBody_untouched acc t a hta
    rw [List.foldl_cons]
    have hrest := ih (addStepsBody acc t)
      (fun t2 ht2 => h t2 (List.mem_cons_of_mem _ ht2))
    exact ⟨hrest.1.trans hbody.1, hrest.2.1.trans hbody.2.1,
      hrest.2.2.1.trans hbody.2.2.1, hrest.2.2.2.1.trans hbody.2.2.2.1,
      hrest.2.2.2.2.trans hbody.2.2.2.2⟩

theorem addStepsLoop_filter [DecidableEq A]
    (ts : List (Timestep A Obs Act Rew)) (e : EnvTrajectories A Obs Act Rew Q)
    (n : Nat) (a : A) (h : alookup e.dones a = some true) :
    ts.foldl addStepsBody (e, n)
      = (ts.filter (fun t => decide (t.agent_id ≠ a))).foldl addStepsBody (e, n) := by
  induction ts generalizing e n with
  | nil => rfl
  | cons t rest ih =>
    by_cases hta : t.agent_id = a
    · have hskip : addStepsBody (e, n) t = (e, n) := addStepsBody_skip (hta ▸ h)
      rw [List.foldl_cons, hskip, List.filter_cons]
      simp only [hta, ne_eq, not_true_eq_false, decide_False, Bool.false_eq_true,
        if_false]
      exact ih e n h
    · rw [List.foldl_cons, List.filter_cons]
      simp only [ne_eq, hta, not_false_eq_true, decide_True, if_true,
        List.foldl_cons]
      rcases hacc : addStepsBody (e, n) t with ⟨e2, n2⟩
      have hpres : alookup e2.dones a = some true := by
        have := addStepsBody_done_preserved (e, n) t a h
        rw [hacc] at this
        exact this
      exact ih e2 n2 hpres

/-- C6 - Drop-after-done: when agent `a` is marked done, an `add_steps` call
behaves exactly as the same call with `a`'s timesteps filtered out (so they
contribute nothing to the state and are excluded from `steps_added`), `a`'s
sequences, `final_obs` and `truncated` flag are unchanged, and exactly one
log-prob row is appended even if every timestep belongs to a done agent. -/
theorem drop_after_done [DecidableEq A]
    (env : EnvTrajectories A Obs Act Rew Q) (a : A)
    (ts : List (Timestep A Obs Act Rew)) (lp : List Q)
    (h : alookup env.dones a = some true) :
    env.add_steps ts lp
      = env.add_steps (ts.filter (fun t => decide (t.agent_id ≠ a))) lp
    ∧ alookup (env.add_steps ts lp).1.obs_lists a = alookup env.obs_lists a
    ∧ alookup (env.add_steps ts lp).1.action_lists a = alookup env.action_lists a
    ∧ alookup (env.add_steps ts lp).1.reward_lists a = alookup env.reward_lists a
    ∧ alookup (env.add_steps ts lp).1.final_obs a = alookup env.final_obs a
    ∧ alookup (env.add_steps ts lp).1.truncateds a = alookup env.truncateds a
    ∧ (env.add_steps ts lp).1.log_probs_list = env.log_probs_list ++ [lp] := by
  have hloop := addStepsLoop_filter ts env 0 a h
  have huntouched := addStepsLoop_untouched
    (ts.filter (fun t => decide (t.agent_id ≠ a))) (env, 0) a
    (fun t ht => of_decide_eq_true (List.mem_filter.mp ht).2)
  refine ⟨?_, ?_, ?_, ?_, ?_, ?_, ?_⟩
  · unfold EnvTrajectories.add_steps
    rw [hloop]
  · show alookup (ts.foldl addStepsBody (env, 0)).1.obs_lists a = _
    rw [hloop]; exact huntouched.1
  · show alookup (ts.foldl addStepsBody (env, 0)).1.action_lists a = _
    rw [hloop]; exact huntouched.2.1
  · show alookup (ts.foldl addStepsBody (env, 0)).1.reward_lists a = _
    rw [hloop]; exact huntouched.2.2.1
  · show alookup (ts.foldl addStepsBody (env, 0)).1.final_obs a = _
    rw [hloop]; exact huntouched.2.2.2.1
  · show alookup (ts.foldl addStepsBody (env, 0)).1.truncateds a = _
    rw [hloop]; exact huntouched.2.2.2.2
  · show (ts.foldl addStepsBody (env, 0)).1.log_probs_list ++ [lp] = _
    rw [addStepsLoop_log_probs]

/-- A call whose only timestep references the already-done agent 0 of
`envW`. -/
def tsW : List (Timestep Nat Nat Nat Nat) :=
  [{ agent_id := 0, obs := 100, next_obs := 101, action := 102, reward := 103,
     terminated := false, truncated := false }]

/-- Witness for C6: the already-done agent's timestep is dropped, its entries
are untouched, and the log-prob row is still appended. -/
theorem drop_after_done_witness :
    envW.add_steps tsW [7, 8] = envW.add_steps [] [7, 8]
    ∧ alookup (envW.add_steps tsW [7, 8]).1.obs_lists 0 = alookup envW.obs_lists 0
    ∧ (envW.add_steps tsW [7, 8]).1.log_probs_list
        = envW.log_probs_list ++ [[7, 8]] := by
  have h := drop_after_done envW 0 tsW [7, 8] (by decide)
  refine ⟨?_, h.2.1, h.2.2.2.2.2.2⟩
  have hf : tsW.filter (fun t => decide (t.agent_id ≠ 0)) = [] := by decide
  rw [h.1, hf]

theorem addStepsBody_agent_ids [DecidableEq A]
    (acc : EnvTrajectories A Obs Act Rew Q × Nat) (t : Timestep A Obs Act Rew) :
    (addStepsBody acc t).1.agent_ids = acc.1.agent_ids := by
  unfold addStepsBody
  by_cases hg : (alookup acc.1.dones t.agent_id).getD false
  · simp [hg]
  · by_cases hnd : (t.terminated || t.truncated) <;> simp [hg, hnd]

theorem addStepsLoop_agent_ids [DecidableEq A]
    (ts : List (Timestep A Obs Act Rew))
    (acc : EnvTrajectories A Obs Act Rew Q × Nat) :
    (ts.foldl addStepsBody acc).1.agent_ids = acc.1.agent_ids := by
  induction ts generalizing acc with
  | nil => rfl
  | cons t rest ih => rw [List.foldl_cons, ih, addStepsBody_agent_ids]

/-- A sequence of `add_steps` calls against one tracker; each call carries its
timestep list and its log-probability row. -/
def runAddSteps [DecidableEq A] (env : EnvTrajectories A Obs Act Rew Q)
    (calls : List (List (Timestep A Obs Act Rew) × List Q)) :
    EnvTrajectories A Obs Act Rew Q :=
  calls.foldl (fun e c => (e.add_steps c.1 c.2).1) env

theorem runAddSteps_log_probs [DecidableEq A]
    (env : EnvTrajectories A Obs Act Rew Q)
    (calls : List (List (Timestep A Obs Act Rew) × List Q)) :
    (runAddSteps env calls).log_probs_list
      = env.log_probs_list ++ calls.map Prod.snd := by
  induction calls generalizing env with
  | nil => simp [runAddSteps]
  | cons c rest ih =>
    show (runAddSteps ((env.add_steps c.1 c.2).1) rest).log_probs_list = _
    rw [ih]
    have : ((env.add_steps c.1 c.2).1).log_probs_list
        = env.log_probs_list ++ [c.2] := by
      show (c.1.foldl addStepsBody (env, 0)).1.log_probs_list ++ [c.2] = _
      rw [addStepsLoop_log_probs]
    rw [this]
    simp

theorem runAddSteps_agent_ids [DecidableEq A]
    (env : EnvTrajectories A Obs Act Rew Q)
    (calls : List (List (Timestep A Obs Act Rew) × List Q)) :
    (runAddSteps env calls).agent_ids = env.agent_ids := by
  induction calls generalizing env with
  | nil => rfl
  | cons c rest ih =>
    show (runAddSteps ((env.add_steps c.1 c.2).1) rest).agent_ids = _
    rw [ih]
    show (c.1.foldl addStepsBody (env, 0)).1.agent_ids = _
    rw [addStepsLoop_agent_ids]

theorem get_trajectories_length {V : Type} [DecidableEq A] [Inhabited Q]
    (env : EnvTrajectories A Obs Act Rew Q) :
    (env.get_trajectories : List (Trajectory A Obs Act Rew Q V)).length
      = env.agent_ids.length := by
  simp [EnvTrajectories.get_trajectories, List.enum_length]

theorem get_trajectories_log_probs {V : Type} [DecidableEq A] [Inhabited Q]
    (env : EnvTrajectories A Obs Act Rew Q) (t : Trajectory A Obs Act Rew Q V)
    (h : t ∈ (env.get_trajectories : List (Trajectory A Obs Act Rew Q V))) :
    t.log_probs.length = env.log_probs_list.length := by
  simp only [EnvTrajectories.get_trajectories, List.mem_map] at h
  obtain ⟨p, _, rfl⟩ := h
  simp

/-- C2 (amended) - Row/column alignment: a tracker seeded with `k` agents and
fed `n` `add_steps` calls yields `k` trajectories, its stacked log-prob buffer
has exactly `n` rows, and every trajectory's log-prob sequence has length `n`
(the full column height of `log_probs[:, idx]`), regardless of when agents
finished.  The nonemptiness and row-width hypotheses restrict the statement
to inputs on which `torch.stack` and the column indexing succeed. -/
theorem row_column_alignment {V : Type} [DecidableEq A] [Inhabited Q]
    (agent_ids : List A)
    (calls : List (List (Timestep A Obs Act Rew) × List Q))
    (hne : calls ≠ [])
    (hw : ∀ c ∈ calls, (Prod.snd c).length = agent_ids.length) :
    (runAddSteps (EnvTrajectories.init agent_ids) calls).log_probs_list.length
      = calls.length
    ∧ ((runAddSteps (EnvTrajectories.init agent_ids) calls).get_trajectories
        : List (Trajectory A Obs Act Rew Q V)).length = agent_ids.length
    ∧ ∀ t ∈ ((runAddSteps (EnvTrajectories.init agent_ids) calls).get_trajectories
        : List (Trajectory A Obs Act Rew Q V)), t.log_probs.length = calls.length := by
  have hlog : (runAddSteps
      (EnvTrajectories.init agent_ids : EnvTrajectories A Obs Act Rew Q)
        calls).log_probs_list = calls.map Prod.snd := by
    rw [runAddSteps_log_probs]
    simp [EnvTrajectories.init]
  refine ⟨by rw [hlog]; simp, ?_, ?_⟩
  · rw [get_trajectories_length, runAddSteps_agent_ids]
    rfl
  · intro t ht
    rw [get_trajectories_log_probs _ t ht, hlog, List.length_map]

/-- Two `add_steps` calls against a two-agent tracker; agent 0 terminates in
the first call, agent 1 keeps running. -/
def callsCex : List (List (Timestep Nat Nat Nat Nat) × List Nat) :=
  [([{ agent_id := 0, obs := 1, next_obs := 2, action := 3, reward := 4,
       terminated := true, truncated := false },
     { agent_id := 1, obs := 5, next_obs := 6, action := 7, reward := 8,
       terminated := false, truncated := false }], [10, 20]),
   ([{ agent_id := 1, obs := 9, next_obs := 10, action := 11, reward := 12,
       terminated := false, truncated := false }], [30, 40])]

/-- The tracker after the two calls of `callsCex`. -/
def envCex : EnvTrajectories Nat Nat Nat Nat Nat :=
  runAddSteps (EnvTrajectories.init [0, 1]) callsCex

/-- Its trajectories. -/
def trajsCex : List (Trajectory Nat Nat Nat Nat Nat Nat) :=
  envCex.get_trajectories

/-- Witness for C2 at the concrete seed and calls of `callsCex`. -/
theorem row_column_alignment_witness :
    (runAddSteps (EnvTrajectories.init [0, 1]) callsCex).log_probs_list.length = 2
    ∧ ((runAddSteps (EnvTrajectories.init [0, 1])
        callsCex).get_trajectories : List (Trajectory Nat Nat Nat Nat Nat Nat)).length = 2
    ∧ ∀ t ∈ ((runAddSteps (EnvTrajectories.init [0, 1])
        callsCex).get_trajectories : List (Trajectory Nat Nat Nat Nat Nat Nat)),
        t.log_probs.length = 2 :=
  row_column_alignment [0, 1] callsCex (by decide) (by decide)

/-- Counterexample for C2 as stated: agent 0 was active during only one of the
two `add_steps` calls (its obs sequence has length 1), yet its log-prob
sequence is the full two-row column, so the claimed equality between log-prob
sequence length and active-call count (equivalently obs-sequence length)
fails. -/
theorem row_column_alignment_cex :
    trajsCex.map (fun t => t.log_probs.length) = [2, 2]
    ∧ trajsCex.map (fun t => t.obs_list.length) = [1, 2]
    ∧ ¬ (∀ t ∈ trajsCex, t.log_probs.length = t.obs_list.length) := by decide

/-- C7 - Reset/step decision: an environment id with no tracker answers STEP
with no state change; one whose tracker has every agent done answers RESET,
appends the tracker's trajectories to the completed list and removes the
tracker from the map (leaving every other environment's tracker in place);
otherwise the answer is STEP with no state change.  The `Nodup` hypothesis is
the dict invariant that the map has one entry per environment id. -/
theorem reset_step_decision [DecidableEq A] [DecidableEq E] [Inhabited Q]
    (s : PPOAgentControllerState A Obs Act Rew Q V M E) (envId : E)
    (hnd : (s.current_env_trajectories.map Prod.fst).Nodup) :
    (alookup s.current_env_trajectories envId = none →
      choose_env_actions_for_env s envId = (.STEP, s))
    ∧ (∀ tr, alookup s.current_env_trajectories envId = some tr →
        tr.dones.all (fun p => p.2) = true →
        (choose_env_actions_for_env s envId).1 = .RESET
        ∧ (choose_env_actions_for_env s envId).2.current_trajectories
            = s.current_trajectories ++ tr.get_trajectories
        ∧ alookup (choose_env_actions_for_env s
            envId).2.current_env_trajectories envId = none
        ∧ (∀ e2, e2 ≠ envId →
            alookup (choose_env_actions_for_env s
              envId).2.current_env_trajectories e2
              = alookup s.current_env_trajectories e2))
    ∧ (∀ tr, alookup s.current_env_trajectories envId = some tr →
        tr.dones.all (fun p => p.2) = false →
        choose_env_actions_for_env s envId = (.STEP, s)) := by
  refine ⟨?_, ?_, ?_⟩
  · intro h
    simp [choose_env_actions_for_env, h]
  · intro tr htr hall
    refine ⟨?_, ?_, ?_, ?_⟩
    · simp [choose_env_actions_for_env, htr, hall]
    · simp [choose_env_actions_for_env, htr, hall]
    · simp only [choose_env_actions_for_env, htr, hall, if_true]
      exact alookup_aremove_self envId hnd
    · intro e2 he2
      simp only [choose_env_actions_for_env, htr, hall, if_true]
      exact alookup_aremove_ne envId e2 he2
  · intro tr htr hall
    simp [choose_env_actions_for_env, htr, hall]

/-- A tracker whose single agent is done. -/
def envDone : EnvTrajectories Nat Nat Nat Nat Nat where
  agent_ids := [0]
  obs_lists := [(0, [1])]
  action_lists := [(0, [2])]
  reward_lists := [(0, [3])]
  final_obs := [(0, some 4)]
  dones := [(0, true)]
  truncateds := [(0, false)]
  log_probs_list := [[5]]

/-- A controller state holding `envDone` under environment id 0 and `envW`
(agent 1 still running) under environment id 1. -/
def sCea : PPOAgentControllerState Nat Nat Nat Nat Nat Nat Nat Nat where
  metrics_logger := some ()
  current_env_trajectories := [(0, envDone), (1, envW)]
  current_trajectories := []
  iteration_state_metrics := []
  cur_iteration := 0
  iteration_timesteps := 0
  cumulative_timesteps := 0
  iteration_start_time := 0
  timestep_collection_start_time := 0
  ts_since_last_save := 0

/-- Witness for C7: environment 2 is unseen (STEP), environment 0 is all done
(RESET, tracker removed, environment 1 kept), environment 1 still runs
(STEP). -/
theorem reset_step_decision_witness :
    choose_env_actions_for_env sCea 2 = (.STEP, sCea)
    ∧ (choose_env_actions_for_env sCea 0).1 = .RESET
    ∧ (choose_env_actions_for_env sCea 0).2.current_trajectories
        = sCea.current_trajectories ++ envDone.get_trajectories
    ∧ alookup (choose_env_actions_for_env sCea 0).2.current_env_trajectories 0
        = none
    ∧ alookup (choose_env_actions_for_env sCea 0).2.current_env_trajectories 1
        = alookup sCea.current_env_trajectories 1
    ∧ choose_env_actions_for_env sCea 1 = (.STEP, sCea) := by
  have h := reset_step_decision sCea 0 (by decide)
  have h0 := h.2.1 envDone (by decide) (by decide)
  refine ⟨(reset_step_decision sCea 2 (by decide)).1 (by decide),
    h0.1, h0.2.1, h0.2.2.1, h0.2.2.2 1 (by decide),
    (reset_step_decision sCea 1 (by decide)).2.2 envW (by decide) (by decide)⟩

/-- C8 (amended) - Retention pruning: for a retention count of at least 1 and
a duplicate-free checkpoint listing, the prune run after a save keeps exactly
the `nKeep` newest tokens (the surviving listing is a permutation of the tail
of the ascending sort), and the deleted tokens are processed in ascending
numeric order, oldest first.  (With retention count 0 the Python slice
`existing[:-0]` is empty and nothing is deleted, see the counterexample.) -/
theorem retention_pruning (tokens : List Int) (nKeep : Nat)
    (hk : 1 ≤ nKeep) (hnd : tokens.Nodup) :
    List.Perm (pruneCheckpoints tokens nKeep)
      ((List.insertionSort (fun a b => a ≤ b) tokens).drop (tokens.length - nKeep))
    ∧ List.Sorted (fun a b : Int => a ≤ b) (checkpointsToDelete tokens nKeep) := by
  have hsortperm : List.Perm (List.insertionSort (fun a b : Int => a ≤ b) tokens)
      tokens := List.perm_insertionSort _ tokens
  have hkne : nKeep ≠ 0 := Nat.one_le_iff_ne_zero.mp hk
  constructor
  · by_cases hlen : nKeep < tokens.length
    · rw [pruneCheckpoints, if_pos hlen]
      have hlensort : (List.insertionSort (fun a b : Int => a ≤ b) tokens).length
          = tokens.length := List.length_insertionSort _ tokens
      have hdel : checkpointsToDelete tokens nKeep
          = (List.insertionSort (fun a b : Int => a ≤ b) tokens).take
              (tokens.length - nKeep) := by
        rw [checkpointsToDelete, pyPrefixSlice, if_neg hkne, hlensort]
      have hfp := hsortperm.symm.filter
        (fun t => decide (t ∉ checkpointsToDelete tokens nKeep))
      have hnds : (List.insertionSort (fun a b : Int => a ≤ b) tokens).Nodup :=
        hsortperm.nodup_iff.mpr hnd
      have key : (List.insertionSort (fun a b : Int => a ≤ b) tokens).filter
            (fun t => decide (t ∉ checkpointsToDelete tokens nKeep))
          = (List.insertionSort (fun a b : Int => a ≤ b) tokens).drop
              (tokens.length - nKeep) := by
        conv_lhs => rw [← List.take_append_drop (tokens.length - nKeep)
          (List.insertionSort (fun a b : Int => a ≤ b) tokens)]
        rw [List.filter_append]
        have hdisj := (List.nodup_append.mp (by
          rwa [List.take_append_drop (tokens.length - nKeep)
            (List.insertionSort (fun a b : Int => a ≤ b) tokens)])).2.2
        have h1 : ((List.insertionSort (fun a b : Int => a ≤ b) tokens).take
              (tokens.length - nKeep)).filter
              (fun t => decide (t ∉ checkpointsToDelete tokens nKeep)) = [] := by
          apply List.filter_eq_nil_iff.mpr
          intro a ha
          simp only [decide_eq_true_eq, not_not, hdel]
          exact ha
        have h2 : ((List.insertionSort (fun a b : Int => a ≤ b) tokens).drop
              (tokens.length - nKeep)).filter
              (fun t => decide (t ∉ checkpointsToDelete tokens nKeep))
            = (List.insertionSort (fun a b : Int => a ≤ b) tokens).drop
                (tokens.length - nKeep) := by
          apply List.filter_eq_self.mpr
          intro a ha
          simp only [decide_eq_true_eq, hdel]
          intro hmem
          exact absurd ha (hdisj hmem)
        rw [h1, h2, List.nil_append]
      exact key ▸ hfp
    · rw [pruneCheckpoints, if_neg hlen]
      rw [Nat.sub_eq_zero_of_le (Nat.le_of_not_lt hlen), List.drop_zero]
      exact hsortperm.symm
  · rw [checkpointsToDelete, pyPrefixSlice, if_neg hkne]
    exact List.Pairwise.sublist (List.take_sublist _ _)
      (List.sorted_insertionSort _ tokens)

/-- Witness for C8 at the spec's example: tokens 1..7 at prune time, retention
count 5, survivors exactly 3..7. -/
theorem retention_pruning_witness :
    List.Perm (pruneCheckpoints [1, 2, 3, 4, 5, 6, 7] 5) [3, 4, 5, 6, 7]
    ∧ pruneCheckpoints [1, 2, 3, 4, 5, 6, 7] 5 = [3, 4, 5, 6, 7]
    ∧ checkpointsToDelete [1, 2, 3, 4, 5, 6, 7] 5 = [1, 2] := by
  have h := (retention_pruning [1, 2, 3, 4, 5, 6, 7] 5 (by decide) (by decide)).1
  exact ⟨h.trans (by decide), by decide, by decide⟩

/-- Counterexample for C8 as stated: with retention count 0 the claim demands
that every checkpoint directory (all being beyond the count) is deleted after
a save, but `existing[:-0]` is the empty slice, so the prune deletes nothing:
after the save that produced listing `[1, 2]`, both directories remain. -/
theorem retention_pruning_cex :
    pruneCheckpoints [1, 2] 0 = [1, 2]
    ∧ ¬ ((pruneCheckpoints [1, 2] 0).length ≤ 0) := by decide

/-- A controller built without a metrics collaborator
(`metrics_logger_factory` absent). -/
def sNoML : PPOAgentControllerState Nat Nat Nat Nat Nat Nat Nat Nat :=
  initController none 0

/-- A trivial external critic for concrete evaluations. -/
def critic0 : List Nat → List (Option Nat) → List Nat := fun _ _ => []

/-- C10 - Missing metrics logger: with `metrics_logger = None`,
`save_checkpoint` raises (the `self.metrics_logger.save_checkpoint` call is
unconditional), while `_learn` still completes - its metrics reporting is
guarded by an `is not None` check, so the learning step's state reset goes
through. -/
theorem save_checkpoint_requires_metrics_logger [DecidableEq A] [Inhabited Q]
    (s : PPOAgentControllerState A Obs Act Rew Q V M E)
    (tokens : List Int) (newToken : Int) (nKeep : Nat)
    (critic : List A → List (Option Obs) → List V) (curTime t2 : Int)
    (h : s.metrics_logger = none) :
    save_checkpoint s tokens newToken nKeep = .error metricsLoggerNoneMsg
    ∧ (learn s critic curTime t2).1.iteration_timesteps = 0 := by
  constructor
  · rw [save_checkpoint, h]
  · rfl

/-- Witness for C10 at a concrete metrics-logger-free controller. -/
theorem save_checkpoint_requires_metrics_logger_witness :
    save_checkpoint sNoML [1] 2 5 = .error metricsLoggerNoneMsg
    ∧ (learn sNoML critic0 0 0).1.iteration_timesteps = 0 :=
  save_checkpoint_requires_metrics_logger sNoML [1] 2 5 critic0 0 0 rfl

/-- C3 (amended) - Learning-step reset: after `_learn`, the state-metrics
list, the open-tracker map and the completed-trajectory list are empty,
`iteration_timesteps` has been rolled into `ts_since_last_save` and zeroed,
both start timers are reset to the supplied `perf_counter` readings, and
`cumulative_timesteps` and `cur_iteration` are unchanged - the code contains
no `cur_iteration` increment. -/
theorem learning_step_resets [DecidableEq A] [Inhabited Q]
    (s : PPOAgentControllerState A Obs Act Rew Q V M E)
    (critic : List A → List (Option Obs) → List V) (curTime t2 : Int) :
    (learn s critic curTime t2).1.iteration_state_metrics = []
    ∧ (learn s critic curTime t2).1.current_env_trajectories = []
    ∧ (learn s critic curTime t2).1.current_trajectories = []
    ∧ (learn s critic curTime t2).1.ts_since_last_save
        = s.ts_since_last_save + s.iteration_timesteps
    ∧ (learn s critic curTime t2).1.iteration_timesteps = 0
    ∧ (learn s critic curTime t2).1.iteration_start_time = curTime
    ∧ (learn s critic curTime t2).1.timestep_collection_start_time = t2
    ∧ (learn s critic curTime t2).1.cumulative_timesteps = s.cumulative_timesteps
    ∧ (learn s critic curTime t2).1.cur_iteration = s.cur_iteration :=
  ⟨rfl, rfl, rfl, rfl, rfl, rfl, rfl, rfl, rfl⟩

/-- A controller state at iteration 3. -/
def sLearnCex : PPOAgentControllerState Nat Nat Nat Nat Nat Nat Nat Nat :=
  { initController (some ()) 0 with cur_iteration := 3 }

/-- Counterexample for C3 as stated: `_learn` leaves `cur_iteration`
unchanged, so it is not incremented by one. -/
theorem learning_step_resets_cex :
    (learn sLearnCex critic0 5 7).1.cur_iteration = 3
    ∧ ¬ ((learn sLearnCex critic0 5 7).1.cur_iteration = 3 + 1) := by decide

/-- C1 (amended) - Checkpoint round-trip: loading the checkpoint written by
`save_checkpoint` restores the five scalars, the pending completed-trajectory
list and the state-metrics list exactly; the open-tracker map
`current_env_trajectories` is not written to or read from the checkpoint, so
after loading it keeps whatever the loading controller already had (the
freshly-constructed controller's empty map in the real load path). -/
theorem checkpoint_roundtrip
    (s sAtLoad : PPOAgentControllerState A Obs Act Rew Q V M E) :
    (load_from_checkpoint sAtLoad (saveData s)).cur_iteration = s.cur_iteration
    ∧ (load_from_checkpoint sAtLoad (saveData s)).iteration_timesteps
        = s.iteration_timesteps
    ∧ (load_from_checkpoint sAtLoad (saveData s)).cumulative_timesteps
        = s.cumulative_timesteps
    ∧ (load_from_checkpoint sAtLoad (saveData s)).iteration_start_time
        = s.iteration_start_time
    ∧ (load_from_checkpoint sAtLoad (saveData s)).timestep_collection_start_time
        = s.timestep_collection_start_time
    ∧ (load_from_checkpoint sAtLoad (saveData s)).current_trajectories
        = s.current_trajectories
    ∧ (load_from_checkpoint sAtLoad (saveData s)).iteration_state_metrics
        = s.iteration_state_metrics
    ∧ (load_from_checkpoint sAtLoad (saveData s)).current_env_trajectories
        = sAtLoad.current_env_trajectories :=
  ⟨rfl, rfl, rfl, rfl, rfl, rfl, rfl, rfl⟩

/-- The configuration of the C1 counterexample run: `save_every_ts = 0`, so a
checkpoint save triggers on the first delivery, before any learning step. -/
def cfgCex : PPOAgentControllerConfig where
  timesteps_per_iteration := 50000
  save_every_ts := 0
  n_checkpoints_to_keep := 5

/-- A single running (not done) timestep for agent 0. -/
def tsRunCex : Timestep Nat Nat Nat Nat where
  agent_id := 0
  obs := 1
  next_obs := 2
  action := 3
  reward := 4
  terminated := false
  truncated := false

/-- One delivered timestep batch: environment 0 with `tsRunCex`. -/
def tsEntryCex : TimestepDataEntry Nat Nat Nat Nat Nat Nat Nat where
  env_id := 0
  env_timesteps := [tsRunCex]
  env_log_probs := [5]
  env_state_metrics := 7

/-- A freshly constructed controller (the state `_load_from_checkpoint` runs
on in the real load path). -/
def sFresh : PPOAgentControllerState Nat Nat Nat Nat Nat Nat Nat Nat :=
  initController (some ()) 0

/-- The controller state at which `save_checkpoint` runs during that
delivery: its open-tracker map holds the live tracker of environment 0. -/
def sSaveCex : PPOAgentControllerState Nat Nat Nat Nat Nat Nat Nat Nat :=
  process_timestep_data_core cfgCex sFresh [tsEntryCex] critic0 0 0

/-- Counterexample for C1 as stated: `sSaveCex` is a reachable state at which
`save_checkpoint` writes a checkpoint while an open tracker exists, yet
loading that checkpoint leaves the open-tracker map empty, so the map's
contents are not restored. -/
theorem checkpoint_roundtrip_cex :
    SaveInvoked cfgCex sSaveCex
    ∧ sSaveCex.current_env_trajectories ≠ []
    ∧ (load_from_checkpoint sFresh
        (saveData sSaveCex)).current_env_trajectories = [] := by
  refine ⟨⟨sFresh, [tsEntryCex], critic0, 0, 0,
    .init (some ()) 0, rfl, by decide⟩, by decide, by decide⟩

/-! ### Lemmas about the value backfill -/

/-- The flattened request length contributed by one trajectory: one slot per
observation plus one for `final_obs`. -/
def trajReqLen {A Obs Act Rew Q V : Type} (t : Trajectory A Obs Act Rew Q V) :
    Nat :=
  t.obs_list.length + 1

/-- Total flattened request length of a trajectory list. -/
def sumReqLens {A Obs Act Rew Q V : Type}
    (trajs : List (Trajectory A Obs Act Rew Q V)) : Nat :=
  (trajs.map trajReqLen).sum

theorem pySlice_append_right {β : Type u} (l₁ l₂ : List β) (L i j : Nat)
    (hL : l₁.length = L) (hi : L ≤ i) :
    pySlice (l₁ ++ l₂) i j = pySlice l₂ (i - L) (j - L) := by
  rw [pySlice, pySlice]
  have h1 : (l₁ ++ l₂).drop i = l₂.drop (i - L) := by
    conv_lhs => rw [show i = l₁.length + (i - L) by omega]
    rw [List.drop_append]
  rw [h1]
  congr 1
  omega

theorem buildCriticRequest_cons_ranges {A Obs Act Rew Q V : Type}
    (t0 : Trajectory A Obs Act Rew Q V) (rest : List (Trajectory A Obs Act Rew Q V))
    (s0 : Nat) :
    (buildCriticRequest (t0 :: rest) s0).1
      = (s0, s0 + trajReqLen t0)
        :: (buildCriticRequest rest (s0 + trajReqLen t0)).1 := by
  simp only [buildCriticRequest]
  rw [show (t0.obs_list.map some ++ [t0.final_obs]).length = trajReqLen t0 by
    simp [trajReqLen]]

theorem buildCriticRequest_cons_ids {A Obs Act Rew Q V : Type}
    (t0 : Trajectory A Obs Act Rew Q V) (rest : List (Trajectory A Obs Act Rew Q V))
    (s0 : Nat) :
    (buildCriticRequest (t0 :: rest) s0).2.1
      = List.replicate (trajReqLen t0) t0.agent_id
        ++ (buildCriticRequest rest (s0 + trajReqLen t0)).2.1 := by
  simp only [buildCriticRequest]
  rw [show (t0.obs_list.map some ++ [t0.final_obs]).length = trajReqLen t0 by
    simp [trajReqLen]]

theorem buildCriticRequest_cons_obs {A Obs Act Rew Q V : Type}
    (t0 : Trajectory A Obs Act Rew Q V) (rest : List (Trajectory A Obs Act Rew Q V))
    (s0 : Nat) :
    (buildCriticRequest (t0 :: rest) s0).2.2
      = (t0.obs_list.map some ++ [t0.final_obs])
        ++ (buildCriticRequest rest (s0 + trajReqLen t0)).2.2 := by
  simp only [buildCriticRequest]
  rw [show (t0.obs_list.map some ++ [t0.final_obs]).length = trajReqLen t0 by
    simp [trajReqLen]]

theorem buildCriticRequest_lengths {A Obs Act Rew Q V : Type}
    (trajs : List (Trajectory A Obs Act Rew Q V)) (s0 : Nat) :
    (buildCriticRequest trajs s0).1.length = trajs.length
    ∧ (buildCriticRequest trajs s0).2.1.length = sumReqLens trajs
    ∧ (buildCriticRequest trajs s0).2.2.length = sumReqLens trajs := by
  induction trajs generalizing s0 with
  | nil => simp [buildCriticRequest, sumReqLens]
  | cons t rest ih =>
    obtain ⟨h1, h2, h3⟩ := ih (s0 + trajReqLen t)
    refine ⟨?_, ?_, ?_⟩
    · rw [buildCriticRequest_cons_ranges]
      simp [h1]
    · rw [buildCriticRequest_cons_ids]
      simp only [List.length_append, List.length_replicate, h2, sumReqLens,
        List.map_cons, List.sum_cons]
    · rw [buildCriticRequest_cons_obs]
      simp only [List.length_append, h3, sumReqLens, List.map_cons,
        List.sum_cons, List.length_map, List.length_cons, List.length_nil]
      simp [trajReqLen]

theorem buildCriticRequest_spec {A Obs Act Rew Q V : Type}
    (trajs : List (Trajectory A Obs Act Rew Q V)) (s0 i : Nat)
    (t : Trajectory A Obs Act Rew Q V) (start stop : Nat)
    (ht : trajs.get? i = some t)
    (hr : (buildCriticRequest trajs s0).1.get? i = some (start, stop)) :
    start = s0 + sumReqLens (trajs.take i)
    ∧ stop = start + trajReqLen t
    ∧ stop ≤ s0 + sumReqLens trajs
    ∧ pySlice (buildCriticRequest trajs s0).2.1 (start - s0) (stop - s0)
        = List.replicate (trajReqLen t) t.agent_id
    ∧ pySlice (buildCriticRequest trajs s0).2.2 (start - s0) (stop - s0)
        = t.obs_list.map some ++ [t.final_obs] := by
  induction trajs generalizing s0 i with
  | nil => simp at ht
  | cons t0 rest ih =>
    cases i with
    | zero =>
      have ht0 : t0 = t := by simpa using ht
      subst ht0
      rw [buildCriticRequest_cons_ranges] at hr
      have hr0 : (s0, s0 + trajReqLen t0) = (start, stop) := by simpa using hr
      have hstart : start = s0 := (congrArg Prod.fst hr0).symm
      have hstop : stop = s0 + trajReqLen t0 := (congrArg Prod.snd hr0).symm
      refine ⟨by simpa [sumReqLens] using hstart, by omega, ?_, ?_, ?_⟩
      · simp only [sumReqLens, List.map_cons, List.sum_cons]
        omega
      · rw [hstart, hstop, buildCriticRequest_cons_ids, pySlice]
        simp only [Nat.sub_self, List.drop_zero, Nat.add_sub_cancel_left,
          Nat.sub_zero]
        exact List.take_left' (by simp)
      · rw [hstart, hstop, buildCriticRequest_cons_obs, pySlice]
        simp only [Nat.sub_self, List.drop_zero, Nat.add_sub_cancel_left,
          Nat.sub_zero]
        exact List.take_left' (by simp [trajReqLen])
    | succ n =>
      have htn : rest.get? n = some t := by simpa using ht
      rw [buildCriticRequest_cons_ranges] at hr
      have hrn : (buildCriticRequest rest (s0 + trajReqLen t0)).1.get? n
          = some (start, stop) := by simpa using hr
      obtain ⟨ih1, ih2, ih3, ih4, ih5⟩ := ih _ n htn hrn
      refine ⟨?_, ih2, ?_, ?_, ?_⟩
      · simp only [List.take_succ_cons, sumReqLens, List.map_cons, List.sum_cons]
        simp only [sumReqLens] at ih1
        omega
      · simp only [sumReqLens, List.map_cons, List.sum_cons]
        simp only [sumReqLens] at ih3
        omega
      · rw [buildCriticRequest_cons_ids,
          pySlice_append_right _ _ (trajReqLen t0) _ _ (by simp) (by omega)]
        rw [show start - s0 - trajReqLen t0 = start - (s0 + trajReqLen t0) by omega,
          show stop - s0 - trajReqLen t0 = stop - (s0 + trajReqLen t0) by omega]
        exact ih4
      · rw [buildCriticRequest_cons_obs,
          pySlice_append_right _ _ (trajReqLen t0) _ _ (by simp [trajReqLen])
            (by omega)]
        rw [show start - s0 - trajReqLen t0 = start - (s0 + trajReqLen t0) by omega,
          show stop - s0 - trajReqLen t0 = stop - (s0 + trajReqLen t0) by omega]
        exact ih5

theorem get?_zip_some {α β : Type u} {l₁ : List α} {l₂ : List β} {i : Nat}
    {a : α} {b : β} (h₁ : l₁.get? i = some a) (h₂ : l₂.get? i = some b) :
    (l₁.zip l₂).get? i = some (a, b) := by
  induction l₁ generalizing l₂ i with
  | nil => simp at h₁
  | cons x xs ih =>
    cases l₂ with
    | nil => simp at h₂
    | cons y ys =>
      cases i with
      | zero =>
        simp only [List.get?_cons_zero, Option.some.injEq] at h₁ h₂
        simp [List.zip_cons_cons, h₁, h₂]
      | succ n =>
        simp only [List.get?_cons_succ] at h₁ h₂
        simpa [List.zip_cons_cons] using ih h₁ h₂

theorem applyValPreds_get? {A Obs Act Rew Q V : Type}
    (trajs : List (Trajectory A Obs Act Rew Q V)) (ranges : List (Nat × Nat))
    (vals : List V) (i : Nat) (t : Trajectory A Obs Act Rew Q V)
    (start stop : Nat)
    (ht : trajs.get? i = some t) (hr : ranges.get? i = some (start, stop)) :
    (applyValPreds trajs ranges vals).get? i
      = some { t with val_preds := some (pySlice vals start (stop - 1)),
                      final_val_pred := vals.get? (stop - 1) } := by
  have hzip := get?_zip_some ht hr
  have hlt : i < (trajs.zip ranges).length := (List.get?_eq_some.mp hzip).choose
  rw [applyValPreds, List.get?_append (by simpa using hlt), List.get?_map, hzip]
  rfl

/-- C4 - Value backfill offsets: for every completed-trajectory list, the
flattened critic request holds, per trajectory in order, one agent-id and one
observation slot per entry of `obs_sequence` plus one for `final_obs`; the
trajectory at index `i` owns the contiguous range `[start, stop)` starting at
the prefix sum of the preceding per-trajectory lengths; and after the single
critic call (whose output has one value per input slot), that trajectory's
`val_preds` is `result[start : stop - 1]` - the same length as its
`obs_sequence` - and its `final_val_pred` is `result[stop - 1]`. -/
theorem value_backfill_offsets {A Obs Act Rew Q V : Type}
    (trajs : List (Trajectory A Obs Act Rew Q V))
    (critic : List A → List (Option Obs) → List V)
    (i : Nat) (t : Trajectory A Obs Act Rew Q V) (start stop : Nat)
    (ht : trajs.get? i = some t)
    (hr : (buildCriticRequest trajs 0).1.get? i = some (start, stop))
    (hv : (critic (buildCriticRequest trajs 0).2.1
        (buildCriticRequest trajs 0).2.2).length
      = (buildCriticRequest trajs 0).2.2.length) :
    (buildCriticRequest trajs 0).2.1.length = sumReqLens trajs
    ∧ (buildCriticRequest trajs 0).2.2.length = sumReqLens trajs
    ∧ start = sumReqLens (trajs.take i)
    ∧ stop = start + (t.obs_list.length + 1)
    ∧ pySlice (buildCriticRequest trajs 0).2.1 start stop
        = List.replicate (t.obs_list.length + 1) t.agent_id
    ∧ pySlice (buildCriticRequest trajs 0).2.2 start stop
        = t.obs_list.map some ++ [t.final_obs]
    ∧ (update_value_predictions trajs critic).get? i
        = some { t with
            val_preds := some (pySlice (critic (buildCriticRequest trajs 0).2.1
              (buildCriticRequest trajs 0).2.2) start (stop - 1))
            final_val_pred := (critic (buildCriticRequest trajs 0).2.1
              (buildCriticRequest trajs 0).2.2).get? (stop - 1) }
    ∧ (pySlice (critic (buildCriticRequest trajs 0).2.1
        (buildCriticRequest trajs 0).2.2) start (stop - 1)).length
        = t.obs_list.length
    ∧ stop - 1 < (critic (buildCriticRequest trajs 0).2.1
        (buildCriticRequest trajs 0).2.2).length := by
  obtain ⟨hs1, hs2, hs3, hs4, hs5⟩ := buildCriticRequest_spec trajs 0 i t
    start stop ht hr
  obtain ⟨-, hl2, hl3⟩ := buildCriticRequest_lengths trajs 0
  rw [Nat.sub_zero] at hs4 hs5
  rw [Nat.zero_add] at hs1 hs3
  refine ⟨hl2, hl3, hs1, by simpa [trajReqLen] using hs2, ?_, hs5, ?_, ?_, ?_⟩
  · simpa [trajReqLen] using hs4
  · exact applyValPreds_get? trajs _ _ i t start stop ht hr
  · rw [pySlice, List.length_take, List.length_drop, hv, hl3]
    simp only [trajReqLen] at hs2 hs3
    omega
  · rw [hv, hl3]
    simp only [trajReqLen] at hs2 hs3
    omega

/-- A completed trajectory of length 1 for agent 0. -/
def trajA : Trajectory Nat Nat Nat Nat Nat Nat where
  agent_id := 0
  obs_list := [1]
  action_list := [2]
  log_probs := [3]
  reward_list := [4]
  val_preds := none
  final_obs := some 5
  final_val_pred := none
  truncated := false

/-- A completed trajectory of length 2 for agent 1. -/
def trajB : Trajectory Nat Nat Nat Nat Nat Nat where
  agent_id := 1
  obs_list := [6, 7]
  action_list := [8, 9]
  log_probs := [10, 11]
  reward_list := [12, 13]
  val_preds := none
  final_obs := some 14
  final_val_pred := none
  truncated := true

/-- An external critic returning one value per observation slot. -/
def criticId : List Nat → List (Option Nat) → List Nat :=
  fun _ obss => List.range obss.length

/-- Witness for C4 at the two concrete trajectories `[trajA, trajB]` and the
critic `criticId`: trajectory 1 owns range `[2, 5)`. -/
theorem value_backfill_offsets_witness :
    pySlice (buildCriticRequest [trajA, trajB] 0).2.1 2 5
      = List.replicate (trajB.obs_list.length + 1) trajB.agent_id
    ∧ (update_value_predictions [trajA, trajB] criticId).get? 1
        = some { trajB with
            val_preds := some (pySlice (criticId
              (buildCriticRequest [trajA, trajB] 0).2.1
              (buildCriticRequest [trajA, trajB] 0).2.2) 2 (5 - 1))
            final_val_pred := (criticId
              (buildCriticRequest [trajA, trajB] 0).2.1
              (buildCriticRequest [trajA, trajB] 0).2.2).get? (5 - 1) } := by
  have h := value_backfill_offsets [trajA, trajB] criticId 1 trajB 2 5
    (by decide) (by decide) (by decide)
  exact ⟨h.2.2.2.2.1, h.2.2.2.2.2.2.1⟩

/-- C5 (amended) - Value backfill example: for three completed trajectories
with obs-sequence lengths `[3, 1, 5]`, the flattened request has
`4 + 2 + 6 = 12` entries and ranges `[(0,4), (4,6), (6,12)]`; trajectory 2
(0-indexed) receives `value_predictions` from flattened offsets 6..10 (the
slice `result[6:11]`, length 5) and `final_value_prediction` from offset 11,
not offsets 4..8 and 8 as the claim states. -/
theorem value_backfill_example {A Obs Act Rew Q V : Type}
    (trajs : List (Trajectory A Obs Act Rew Q V)) (vals : List V)
    (hlen : trajs.map (fun t => t.obs_list.length) = [3, 1, 5])
    (hv : vals.length = 12) :
    (buildCriticRequest trajs 0).2.2.length = 12
    ∧ (buildCriticRequest trajs 0).1 = [(0, 4), (4, 6), (6, 12)]
    ∧ (applyValPreds trajs (buildCriticRequest trajs 0).1 vals).get? 2
        = (trajs.get? 2).map (fun t =>
            { t with val_preds := some (pySlice vals 6 11),
                     final_val_pred := vals.get? 11 })
    ∧ (pySlice vals 6 11).length = 5 := by
  have hlen3 : trajs.length = 3 := by
    have := congrArg List.length hlen
    simpa using this
  obtain ⟨t0, t1, t2, rfl⟩ := List.length_eq_three.mp hlen3
  simp only [List.map_cons, List.map_nil, List.cons.injEq, and_true] at hlen
  obtain ⟨h0, h1, h2⟩ := hlen
  have hr0 : trajReqLen t0 = 4 := by simp [trajReqLen, h0]
  have hr1 : trajReqLen t1 = 2 := by simp [trajReqLen, h1]
  have hr2 : trajReqLen t2 = 6 := by simp [trajReqLen, h2]
  have hranges : (buildCriticRequest [t0, t1, t2] 0).1 = [(0, 4), (4, 6), (6, 12)] := by
    rw [buildCriticRequest_cons_ranges, buildCriticRequest_cons_ranges,
      buildCriticRequest_cons_ranges]
    rw [hr0, hr1, hr2]
    rfl
  refine ⟨?_, hranges, ?_, ?_⟩
  · have := (buildCriticRequest_lengths [t0, t1, t2] 0).2.2
    rw [this]
    simp [sumReqLens, hr0, hr1, hr2]
  · rw [hranges]
    have := applyValPreds_get? [t0, t1, t2] [(0, 4), (4, 6), (6, 12)] vals 2 t2
      6 12 rfl rfl
    rw [this]
    rfl
  · rw [pySlice, List.length_take, List.length_drop, hv]
    rfl

/-- Trajectory 0 of the spec's `[3, 1, 5]` example. -/
def trajC0 : Trajectory Nat Nat Nat Nat Nat Nat :=
  { trajA with obs_list := [20, 21, 22] }

/-- Trajectory 1 of the spec's `[3, 1, 5]` example. -/
def trajC1 : Trajectory Nat Nat Nat Nat Nat Nat :=
  { trajA with agent_id := 1, obs_list := [23] }

/-- Trajectory 2 of the spec's `[3, 1, 5]` example. -/
def trajC2 : Trajectory Nat Nat Nat Nat Nat Nat :=
  { trajA with agent_id := 2, obs_list := [24, 25, 26, 27, 28] }

/-- The spec's example list with obs-sequence lengths `[3, 1, 5]`. -/
def trajsC5 : List (Trajectory Nat Nat Nat Nat Nat Nat) :=
  [trajC0, trajC1, trajC2]

/-- Witness for C5 at the concrete `[3, 1, 5]` trajectories and the identity
value array `List.range 12` (so `result[i] = i`). -/
theorem value_backfill_example_witness :
    (buildCriticRequest trajsC5 0).2.2.length = 12
    ∧ (buildCriticRequest trajsC5 0).1 = [(0, 4), (4, 6), (6, 12)]
    ∧ (applyValPreds trajsC5 (buildCriticRequest trajsC5 0).1
        (List.range 12)).get? 2
        = (trajsC5.get? 2).map (fun t =>
            { t with val_preds := some (pySlice (List.range 12) 6 11),
                     final_val_pred := (List.range 12).get? 11 })
    ∧ (pySlice (List.range 12) 6 11).length = 5 :=
  value_backfill_example trajsC5 (List.range 12) (by decide) (by decide)

/-- Counterexample for C5 as stated: with obs lengths `[3, 1, 5]` and the
identity value array (`result[i] = i`), trajectory 2 receives
`value_predictions = [6, 7, 8, 9, 10]` (offsets 6..10) and
`final_value_prediction = 11` (offset 11); the claim's offsets 4..8 with the
final value at offset 8 would instead give `[4, 5, 6, 7, 8]` and `8`. -/
theorem value_backfill_example_cex :
    ((applyValPreds trajsC5 (buildCriticRequest trajsC5 0).1
        (List.range 12)).get? 2).map (fun t => (t.val_preds, t.final_val_pred))
      = some (some [6, 7, 8, 9, 10], some 11)
    ∧ some ([6, 7, 8, 9, 10] : List Nat) ≠ some [4, 5, 6, 7, 8]
    ∧ some (11 : Nat) ≠ some 8 := by decide
